import Mathlib

/-!
Verification development for the HKU map-agent resolution pipeline and
confirmation state machine (`map_agent.py`).

Modelling conventions:
* Python strings are Lean `String`s; `s.lower()` is `pyLower` (ASCII case
  folding — all cased characters appearing in this program's catalog
  strings, cache keys and token sets are ASCII; CJK characters are
  case-invariant in both languages), `s.strip()` is `pyStrip`.
* Python substring containment `a in b` is `pyIn a b`, contiguous-sublist
  containment on the character lists.
* The entity catalog `ENTITIES` (loaded from data files at startup) is a
  `Catalog` parameter; the iteration order `buildings, departments,
  facilities` of the source is `entitiesInOrder`.
* `difflib.SequenceMatcher(None, a.lower(), b.lower()).ratio()` (the body of
  `calculate_similarity`) is an abstract parameter `sim : String → String →
  ℚ`; theorems that need facts about it (a ratio with an empty side and a
  nonempty side is 0) take them as hypotheses, which hold of difflib by the
  definition ratio = 2*M/(|a|+|b|) with M = 0 when one side is empty.
* Python's stable `list.sort(key=score, reverse=True)` is
  `List.insertionSort` with the reflexive descending-score relation; both
  are stable sorts by the same key, so they produce the same list.
* The Selenium map client (`MAP.query_location_with_candidates`) is an
  external collaborator, abstracted by `mapOk : name → category →
  subcategory? → Bool` (its success flag; its message component is unused
  by the pipeline's control flow).
* The chat-completion oracle is abstracted per attempt by
  `oracle : Nat → Option RawIntent`: `some r` stands for a reply that
  survived fence-stripping and JSON parsing into the shape the code reads
  (`intent`, `keywords`, `category_hint`); `none` stands for a timeout,
  transport error, empty reply or unparseable reply (all of which the code's
  retry loop treats alike).
* `json.loads` applied in the two dead branches of `handle_user_query` is an
  abstract parameter `parseCands`; those branches are proved unreachable,
  so every theorem is quantified over it.
-/

namespace MapAgent

/-- One catalog entry: `{"name": ..., "aliases": [...]}` of
`entities.json` / the merged `facilities.json` records. -/
structure Entity where
  name : String
  aliases : List String
deriving DecidableEq, Repr

/-- The in-memory `ENTITIES` index: the three category lists, in the
fixed iteration order of the source (`buildings`, `departments`,
`facilities`). -/
structure Catalog where
  buildings : List Entity
  departments : List Entity
  facilities : List Entity
deriving DecidableEq, Repr

/-- `cat[:-1] if cat.endswith('s') else cat` — the singular category label
computed by every scan loop of the source. -/
def catName (c : String) : String :=
  if c.data.getLast? = some 's' then ⟨c.data.dropLast⟩ else c

/-- The entity scan order shared by `local_match_exact`,
`local_match_fuzzy`, `search_by_keywords` and `find_best_matches`:
buildings, then departments, then facilities, each in catalog order,
paired with the singular category label. -/
def entitiesInOrder (C : Catalog) : List (Entity × String) :=
  C.buildings.map (fun e => (e, catName "buildings"))
    ++ C.departments.map (fun e => (e, catName "departments"))
    ++ C.facilities.map (fun e => (e, catName "facilities"))

/-- Contiguous-sublist test on character lists: `charsInfix p l` is true
iff `p` occurs as a contiguous block inside `l`. -/
def charsInfix (p : List Char) : List Char → Bool
  | [] => p.isEmpty
  | c :: cs => p.isPrefixOf (c :: cs) || charsInfix p cs

/-- Python's substring containment `needle in hay`. -/
def pyIn (needle hay : String) : Bool :=
  charsInfix needle.data hay.data

/-- Python's `s.startswith(p)`. -/
def pyStartswith (s p : String) : Bool :=
  p.data.isPrefixOf s.data

/-- ASCII case folding of one character, as `str.lower` acts on every
character of this program's strings (CJK characters are case-invariant). -/
def pyLowerChar (c : Char) : Char :=
  if 'A' ≤ c ∧ c ≤ 'Z' then Char.ofNat (c.toNat + 32) else c

/-- Python's `s.lower()`. -/
def pyLower (s : String) : String := ⟨s.data.map pyLowerChar⟩

/-- The whitespace characters `str.strip` removes (the ones that can
occur in this program's inputs). -/
def pySpace (c : Char) : Bool := c = ' ' || c = '\t' || c = '\n' || c = '\r'

/-- Python's `s.strip()`. -/
def pyStrip (s : String) : String :=
  ⟨((s.data.dropWhile pySpace).reverse.dropWhile pySpace).reverse⟩

/-- Python's `int(s)` on the digit strings it is applied to. -/
def pyToNat (s : String) : Nat :=
  s.data.foldl (fun n c => n * 10 + (c.toNat - '0'.toNat)) 0

/-- Python's `any(char.isdigit() for char in q)`. -/
def pyHasDigit (q : String) : Bool :=
  q.data.any (fun c => c.isDigit)

/-- The per-item test of `local_match_exact`: the official name or any
alias equals the normalized query. -/
def entityMatchesExact (ql : String) (e : Entity) : Bool :=
  pyLower e.name == ql || e.aliases.any (fun a => pyLower a == ql)

/-- `local_match_exact(q)`: normalize with `q.lower().strip()` and return
the first `(official name, category)` whose name or alias equals the
normalized query, scanning `entitiesInOrder`. -/
def local_match_exact (C : Catalog) (q : String) : Option (String × String) :=
  let ql := pyStrip (pyLower q)
  (entitiesInOrder C).findSome? fun x =>
    if entityMatchesExact ql x.1 then some (x.1.name, x.2) else none

/-- The per-item test of `local_match_fuzzy`: the lower-cased official
name or an alias occurs inside the lower-cased query (one direction
only, as in the source). -/
def entityMatchesFuzzy (ql : String) (e : Entity) : Bool :=
  pyIn (pyLower e.name) ql || e.aliases.any (fun a => pyIn (pyLower a) ql)

/-- `local_match_fuzzy(q)`: normalize with `q.lower()` (no strip) and
return the first `(official name, category)` whose name or alias is
contained in the query, scanning `entitiesInOrder`. -/
def local_match_fuzzy (C : Catalog) (q : String) : Option (String × String) :=
  let ql := pyLower q
  (entitiesInOrder C).findSome? fun x =>
    if entityMatchesFuzzy ql x.1 then some (x.1.name, x.2) else none

/-- Modelled from the spec (§4.3 wording) for comparison with the code's
`local_match_fuzzy`: both containment directions are tried and the query
is normalized exactly like the exact matcher (lower-cased and trimmed). -/
def specFuzzyMatches (ql : String) (e : Entity) : Bool :=
  (pyIn (pyLower e.name) ql || e.aliases.any (fun a => pyIn (pyLower a) ql))
    || (pyIn ql (pyLower e.name) || e.aliases.any (fun a => pyIn ql (pyLower a)))

/-- Modelled from the spec (§4.3 wording): the fuzzy matcher the spec
describes, used only to exhibit where the code diverges from it. -/
def specMatchFuzzy (C : Catalog) (q : String) : Option (String × String) :=
  let ql := pyStrip (pyLower q)
  (entitiesInOrder C).findSome? fun x =>
    if specFuzzyMatches ql x.1 then some (x.1.name, x.2) else none

/-- `fallback_match(q)`: exact, then fuzzy, then the raw input tagged
`building`. -/
def fallback_match (C : Catalog) (q : String) : String × String :=
  match local_match_exact C q with
  | some hit => hit
  | none =>
    match local_match_fuzzy C q with
    | some hit => hit
    | none => (pyStrip q, "building")

/-- The record `extract_intent_with_llm` returns:
`{"intent": ..., "keywords": [...], "category_hint": ..., "subcategory": ...}`
(the `subcategory` key is only ever added by the rule fallback). -/
structure IntentData where
  intent : String
  keywords : List String
  categoryHint : String
  subcategory : Option String
deriving DecidableEq, Repr

/-- An oracle reply that survived fence stripping and `json.loads`:
the three fields the code reads from the parsed dict (a missing key is
`none` / `[]`). A reply that fails to parse, is empty, or times out is
`none` at the `oracle` parameter instead. -/
structure RawIntent where
  intent : Option String
  keywords : List String
  categoryHint : Option String
deriving DecidableEq, Repr

/-- The seeded `INTENT_CACHE` literal of the source, as an association
list (all seed entries lack a `subcategory` key). -/
def INTENT_CACHE : List (String × IntentData) := [
  ("我想去运动", ⟨"find_sports_facility",
    ["运动", "体育", "sports", "gym", "fitness", "游泳", "swimming", "羽毛球", "篮球", "健身房"],
    "facility", none⟩),
  ("我想吃饭", ⟨"find_dining",
    ["餐厅", "食堂", "canteen", "restaurant", "dining", "cafe", "咖啡", "美食", "吃饭"],
    "facility", none⟩),
  ("我要学习", ⟨"find_study_space",
    ["图书馆", "library", "study", "自习室", "学习", "阅览室", "reading room"],
    "facility", none⟩),
  ("我想运动", ⟨"find_sports_facility",
    ["运动", "体育", "sports", "gym", "fitness", "游泳", "swimming", "羽毛球", "篮球", "健身房"],
    "facility", none⟩),
  ("哪里可以停车", ⟨"find_parking",
    ["parking", "停车", "泊车", "car park"],
    "facility", none⟩),
  ("学校有银行吗", ⟨"find_bank",
    ["bank", "银行", "banking", "atm"],
    "facility", none⟩),
  ("学校里有什么bank", ⟨"find_bank",
    ["bank", "银行", "banking", "atm"],
    "facility", none⟩)]

/-- Trigger word lists of `fallback_intent_extraction`, rules 1-10 in
source order. -/
def sportTriggers : List String := ["运动", "sport", "gym", "健身", "游泳", "羽毛球", "篮球", "跑步"]

def restTriggers : List String := ["休息", "rest", "座位", "lounge", "坐", "sitting", "relax"]

def diningTriggers : List String := ["吃", "饭", "餐", "canteen", "restaurant", "cafe", "咖啡", "食堂"]

def studyTriggers : List String := ["学习", "自习", "study", "library", "图书", "读书"]

def healthTriggers : List String := ["医", "health", "clinic", "医疗", "诊所", "看病"]

def printTriggers : List String := ["打印", "print", "复印", "copy"]

def parkingTriggers : List String := ["停车", "parking", "泊车", "park", "车位"]

def swimTriggers : List String := ["游泳", "swimming", "pool", "游泳池"]

def toiletTriggers : List String := ["厕所", "toilet", "washroom", "restroom", "洗手间", "卫生间"]

def bankTriggers : List String := ["银行", "bank", "atm", "取钱", "存钱"]

/-- `any(kw in ql for kw in kws)`. -/
def containsAny (ql : String) (kws : List String) : Bool :=
  kws.any (fun kw => pyIn kw ql)

/-- `query.replace("？", "").replace("?", "").strip()` of the default rule. -/
def stripQuestionMarks (q : String) : String :=
  pyStrip ⟨q.data.filter (fun c => c ≠ '？' ∧ c ≠ '?')⟩

/-- `fallback_intent_extraction(query)`: the fixed, ordered
keyword-trigger rule table, matched by substring containment on the
lower-cased query, with the identity default rule last. -/
def fallback_intent_extraction (query : String) : IntentData :=
  let ql := pyLower query
  if containsAny ql sportTriggers then
    ⟨"find_sports_facility",
      ["运动", "体育", "sports", "gym", "fitness", "swimming", "游泳", "sport centre", "sports ground"],
      "facility", none⟩
  else if containsAny ql restTriggers then
    ⟨"find_rest_area",
      ["休息", "rest", "lounge", "休息室", "common room", "座位", "sitting area", "student lounge"],
      "facility", none⟩
  else if containsAny ql diningTriggers then
    ⟨"find_dining",
      ["餐厅", "食堂", "canteen", "restaurant", "dining", "cafe", "咖啡", "coffee", "catering"],
      "facility", some "Catering Outlets"⟩
  else if containsAny ql studyTriggers then
    ⟨"find_study_space",
      ["图书馆", "library", "study", "自习室", "reading room", "学习空间"],
      "facility", some "Libraries"⟩
  else if containsAny ql healthTriggers then
    ⟨"find_health_service",
      ["health", "clinic", "medical", "医疗", "诊所", "health centre", "dental", "medical unit"],
      "facility", some "Health Services"⟩
  else if containsAny ql printTriggers then
    ⟨"find_printing",
      ["print", "打印", "printing", "copy", "复印", "computer", "computing"],
      "facility", some "Computing Services"⟩
  else if containsAny ql parkingTriggers then
    ⟨"find_parking",
      ["parking", "停车", "泊车", "car park"],
      "facility", some "Parking"⟩
  else if containsAny ql swimTriggers then
    ⟨"find_swimming",
      ["swimming", "游泳", "pool", "游泳池"],
      "facility", some "Sports"⟩
  else if containsAny ql toiletTriggers then
    ⟨"find_toilet",
      ["toilet", "厕所", "washroom", "restroom", "洗手间"],
      "facility", none⟩
  else if containsAny ql bankTriggers then
    ⟨"find_bank",
      ["bank", "银行", "banking", "atm"],
      "facility", some "Banking Services"⟩
  else
    ⟨"unknown", [query, stripQuestionMarks query], "facility", none⟩

/-- Field validation the code applies to a parsed oracle reply:
`intent` defaults to `"unknown"`, `category_hint` is forced to
`"facility"` unless it is one of the three legal labels; the oracle path
never sets a `subcategory`. -/
def validateIntent (r : RawIntent) : IntentData :=
  { intent := r.intent.getD "unknown"
    keywords := r.keywords
    categoryHint :=
      match r.categoryHint with
      | some h => if h = "building" ∨ h = "department" ∨ h = "facility" then h else "facility"
      | none => "facility"
    subcategory := none }

/-- The retry loop of `extract_intent_with_llm` (`max_retries = 2`):
attempt indices `i, i+1, ...` while `fuel` remains; an attempt is usable
when it parsed and its `keywords` list is non-empty (the code's
`if not data.get("keywords")` test). -/
def firstUsableReply (oracle : Nat → Option RawIntent) : Nat → Nat → Option RawIntent
  | _, 0 => none
  | i, fuel + 1 =>
    match oracle i with
    | some r => if r.keywords.isEmpty then firstUsableReply oracle (i + 1) fuel else some r
    | none => firstUsableReply oracle (i + 1) fuel

/-- `extract_intent_with_llm(llm, query)`: cache lookup on the stripped
query, else up to two oracle attempts (validated and cached on success),
else the rule fallback. The function is total — every transport or
parse failure is absorbed here, never surfaced to the caller — and
returns the result paired with the possibly-extended cache. -/
def extract_intent_with_llm (cache : List (String × IntentData))
    (oracle : Nat → Option RawIntent) (q : String) :
    IntentData × List (String × IntentData) :=
  match cache.find? (fun kv => kv.1 == pyStrip q) with
  | some kv => (kv.2, cache)
  | none =>
    match firstUsableReply oracle 0 2 with
    | some r =>
      let d := validateIntent r
      (d, (pyStrip q, d) :: cache)
    | none => (fallback_intent_extraction q, cache)

/-- The `FACILITIES` side index loaded from `facilities.json`: the named
subcategory buckets (each bucket item contributes only its `name` field
to `search_by_keywords`, so buckets are modelled as name lists). A
missing file or empty dict — falsy in the source's
`if subcategory and FACILITIES:` test — is `none` at use sites. -/
structure Facilities where
  subcat : List (String × List String)
deriving DecidableEq, Repr

/-- `FACILITIES.get("subcategory", {}).get(s, [])` without the default. -/
def lookupBucket (F : Facilities) (s : String) : Option (List String) :=
  (F.subcat.find? (fun b => b.1 == s)).map (fun b => b.2)

/-- The subcategory-bucket loop of `search_by_keywords`: emit each not
yet seen bucket name once, tagged `"facility"` and the first keyword. -/
def bucketScan (kw0 : String) : List String → List String → List (String × String × String) × List String
  | [], seen => ([], seen)
  | n :: rest, seen =>
    if seen.contains n then bucketScan kw0 rest seen
    else
      let next := bucketScan kw0 rest (n :: seen)
      ((n, "facility", kw0) :: next.1, next.2)

/-- The per-item test of the general keyword scan: the lower-cased
official name or an alias contains the lower-cased keyword. -/
def entityMatchesKeyword (kwl : String) (e : Entity) : Bool :=
  pyIn kwl (pyLower e.name) || e.aliases.any (fun a => pyIn kwl (pyLower a))

/-- Inner loop of the general keyword scan: for one keyword, walk the
catalog in scan order, appending each not yet seen matching entity
(tagged with the original keyword) and recording it as seen. -/
def scanEntitiesKw (kwOrig kwl : String) :
    List (Entity × String) → List String → List (String × String × String) × List String
  | [], seen => ([], seen)
  | (e, cn) :: rest, seen =>
    if seen.contains e.name then scanEntitiesKw kwOrig kwl rest seen
    else if entityMatchesKeyword kwl e then
      let next := scanEntitiesKw kwOrig kwl rest (e.name :: seen)
      ((e.name, cn, kwOrig) :: next.1, next.2)
    else scanEntitiesKw kwOrig kwl rest seen

/-- Outer loop of the general keyword scan: keywords in order, each
lower-cased and stripped, empty ones skipped; the seen set persists
across keywords. -/
def scanKeywords (ents : List (Entity × String)) :
    List String → List String → List (String × String × String)
  | [], _ => []
  | kw :: kws, seen =>
    let kwl := pyStrip (pyLower kw)
    if kwl = "" then scanKeywords ents kws seen
    else
      let step := scanEntitiesKw kw kwl ents seen
      step.1 ++ scanKeywords ents kws step.2

/-- `search_by_keywords(keywords, subcategory)`: if a truthy subcategory
hint names a non-empty bucket of a truthy `FACILITIES`, return that
bucket immediately (deduplicated, tagged with the first keyword or `""`);
otherwise run the general per-keyword containment scan, deduplicated by
official name with the first occurrence kept. -/
def search_by_keywords (fac : Option Facilities) (C : Catalog)
    (keywords : List String) (subcategory : Option String) :
    List (String × String × String) :=
  let bucket :=
    match subcategory, fac with
    | some s, some F =>
      if s == "" then []
      else (bucketScan (keywords.headD "") ((lookupBucket F s).getD []) []).1
    | _, _ => []
  if bucket.isEmpty then scanKeywords (entitiesInOrder C) keywords [] else bucket

/-- Per-entity similarity of `find_best_matches`: the score against the
official name, replaced by an alias score whenever it is strictly
higher. -/
def entityScore (sim : String → String → ℚ) (ql : String) (e : Entity) : ℚ :=
  e.aliases.foldl (fun s a => if sim ql a > s then sim ql a else s) (sim ql e.name)

/-- `find_best_matches(query, top_n)`: score every entity in scan order,
sort stably by descending score (Python's stable `sort(..., reverse=True)`;
`insertionSort` with a reflexive total descending relation is the same
stable sort), and keep the first `top_n`. -/
def find_best_matches (sim : String → String → ℚ) (C : Catalog)
    (query : String) (topN : Nat) : List (String × String × ℚ) :=
  let ql := pyStrip (pyLower query)
  let candidates := (entitiesInOrder C).map (fun x => (x.1.name, x.2, entityScore sim ql x.1))
  (candidates.insertionSort (fun a b => b.2.2 ≤ a.2.2)).take topN

/-- One entry of the `location_candidates` JSON payload built in step 3
of `tool_query_location` (`score` is the hard-coded `0.75`). -/
structure CandInfo where
  name : String
  category : String
  matchedKeyword : String
  score : ℚ
  subcategory : Option String
deriving DecidableEq, Repr

/-- One entry of a candidates payload as re-parsed by `json.loads` in
`handle_user_query` (fields are read back with `.get`, so the two
optional ones may be absent). -/
structure ParsedCand where
  name : String
  category : String
  score : ℚ
  matchedKeyword : Option String
  subcategory : Option String
deriving DecidableEq, Repr

/-- All ambient collaborators of one `tool_query_location` /
`handle_user_query` call: the catalog and facilities data, the intent
cache state, the chat-completion oracle, the Selenium map client's
success flag, the similarity ratio, and the JSON re-parse plus percent
formatting used only in the two dead confirmation branches. -/
structure Env where
  C : Catalog
  fac : Option Facilities
  cache : List (String × IntentData)
  oracle : Nat → Option RawIntent
  mapOk : String → String → Option String → Bool
  sim : String → String → ℚ
  parseCands : String → List ParsedCand
  pct : ℚ → String

/-- The distinguishable returns of `tool_query_location`, one
constructor per `return` expression of the source (the three `found`
constructors render to the same user string but record which strategy
resolved). -/
inductive ToolResult where
  | exactFound (name cat : String)
  | exactNotLocated (name : String)
  | fuzzyFound (name cat : String)
  | llmCandidates (cands : List CandInfo)
  | simFound (name cat : String)
  | confirmCandidates (cands : List (String × String × ℚ))
  | unresolvedOutcome (q : String)
deriving DecidableEq, Repr

/-- `filtered = [r for r in results if r[1] == hint] or results`, capped
at 5, from step 3 of `tool_query_location`. -/
def filterByHint (rs : List (String × String × String)) (hint : String) :
    List (String × String × String) :=
  let f := rs.filter (fun r => r.2.1 == hint)
  (if f.isEmpty then rs else f).take 5

/-- Step 3 of `tool_query_location`: only for stripped length `< 15`
with no digit, call the extractor and the keyword search; a non-empty
search result becomes the `location_candidates` payload (score `0.75`,
the subcategory hint carried into every entry). -/
def llmStage (env : Env) (q : String) : Option ToolResult :=
  if (pyStrip q).length < 15 ∧ pyHasDigit q = false then
    let d := (extract_intent_with_llm env.cache env.oracle q).1
    let sr := search_by_keywords env.fac env.C d.keywords d.subcategory
    if sr.isEmpty then none
    else
      some (.llmCandidates ((filterByHint sr d.categoryHint).map
        (fun r => ⟨r.1, r.2.1, r.2.2, mkRat 3 4, d.subcategory⟩)))
  else none

/-- Steps 4-6 of `tool_query_location`: similarity ranking with the
fixed thresholds — top score above `0.6` tries the map directly, else
(or when the map fails) a top score above `0.3` returns the ranked
candidates for confirmation, else the apology. -/
def simStage (env : Env) (q : String) : ToolResult :=
  match find_best_matches env.sim env.C q 3 with
  | [] => .unresolvedOutcome q
  | (n, c, s) :: rest =>
    if s > mkRat 3 5 ∧ env.mapOk n c none then .simFound n c
    else if s > mkRat 3 10 then .confirmCandidates ((n, c, s) :: rest)
    else .unresolvedOutcome q

/-- `tool_query_location(q)` as a decision: exact match (short-circuits
whether or not the map locates it), fuzzy match (falls through on map
failure), the LLM keyword stage, then the similarity stage. -/
def toolOutcome (env : Env) (q : String) : ToolResult :=
  match local_match_exact env.C q with
  | some (n, c) =>
    if env.mapOk n c none then .exactFound n c else .exactNotLocated n
  | none =>
    match local_match_fuzzy env.C q with
    | some (n, c) =>
      if env.mapOk n c none then .fuzzyFound n c
      else
        match llmStage env q with
        | some r => r
        | none => simStage env q
    | none =>
      match llmStage env q with
      | some r => r
      | none => simStage env q

/-- Simplified JSON string literal (escaping elided; only the leading
character of the rendered payloads is ever inspected by the caller). -/
def jsonStr (s : String) : String := "\"" ++ (s ++ "\"")

/-- JSON rendering of an optional subcategory. -/
def jsonOptStr : Option String → String
  | none => "null"
  | some s => jsonStr s

/-- JSON rendering of one `location_candidates` entry. -/
def jsonCandInfo (c : CandInfo) : String :=
  "\x7b\"name\": " ++ (jsonStr c.name ++ (", \"category\": " ++ (jsonStr c.category ++
    (", \"matched_keyword\": " ++ (jsonStr c.matchedKeyword ++
    (", \"score\": " ++ (toString c.score ++
    (", \"subcategory\": " ++ (jsonOptStr c.subcategory ++ "\x7d")))))))))

/-- JSON rendering of one `location_confirm` entry. -/
def jsonConfirmCand (m : String × String × ℚ) : String :=
  "\x7b\"name\": " ++ (jsonStr m.1 ++ (", \"category\": " ++ (jsonStr m.2.1 ++
    (", \"score\": " ++ (toString m.2.2 ++ "\x7d")))))

/-- JSON rendering of a list. -/
def jsonList (f : α → String) (xs : List α) : String :=
  "[" ++ (String.intercalate ", " (xs.map f) ++ "]")

/-- The string `tool_query_location` actually returns for each decision
(numeric serialization approximated by the `ℚ` representation; only the
leading character matters to `handle_user_query`). -/
def renderResult : ToolResult → String
  | .exactFound n c => "✓ 已为您找到：" ++ (n ++ ("（" ++ (c ++ "）")))
  | .exactNotLocated n => "⚠ 词表中有 " ++ (n ++ "，但地图未能定位")
  | .fuzzyFound n c => "✓ 已为您找到：" ++ (n ++ ("（" ++ (c ++ "）")))
  | .llmCandidates cs =>
    "\x7b\"type\": \"location_candidates\", \"content\": " ++ (jsonList jsonCandInfo cs ++ "\x7d")
  | .simFound n c => "✓ 已为您找到：" ++ (n ++ ("（" ++ (c ++ "）")))
  | .confirmCandidates ms =>
    "\x7b\"type\": \"location_confirm\", \"content\": " ++ (jsonList jsonConfirmCand ms ++ "\x7d")
  | .unresolvedOutcome q =>
    "\x7b\"type\": \"location\", \"content\": \"抱歉，未能找到与「" ++
      (q ++ "」相关的地点。\n请尝试使用建筑物/部门的官方名称或常用简称。\"\x7d")

/-- `tool_query_location(q)`, the string the agent tool returns. -/
def tool_query_location (env : Env) (q : String) : String :=
  renderResult (toolOutcome env q)

/-- The module-level mutable `pending_confirmation` dict. The whole
process holds exactly one such value — the Flask `/map_chat` route and
the CLI loop both call `handle_user_query` on it with no session
identifier — so this type is the complete confirmation state of the
process, shared by every conversation. -/
structure Pending where
  candidates : List (String × String × ℚ)
  query : String
  subcategory : Option String
deriving DecidableEq, Repr

/-- The reset value `{"candidates": [], "query": ""}` (the `subcategory`
key absent, so `.get` yields `None`). -/
def emptyPending : Pending := ⟨[], "", none⟩

/-- The accept tokens `{"是", "yes", "对", "y", "确认", "1"}`. -/
def confirmTokens : List String := ["是", "yes", "对", "y", "确认", "1"]

/-- The reject tokens `{"否", "no", "不是", "n", "0"}`. -/
def rejectTokens : List String := ["否", "no", "不是", "n", "0"]

/-- The selection tokens `{"2", "3", "4", "5"}`. -/
def selectionTokens : List String := ["2", "3", "4", "5"]

/-- `MAP.query_location_with_candidates([name], category, subcategory)`
followed by the success / failure message of the selection branches. -/
def locateSelected (env : Env) (name cat : String) (sub : Option String) : String :=
  if env.mapOk name cat sub then "✓ 已为您找到：" ++ (name ++ ("（" ++ (cat ++ "）")))
  else "⚠ 抱歉，未能在地图上定位到 " ++ name

/-- Lines `"  {i+1}. ..."` of a confirmation menu. -/
def enumLines (f : Nat → α → String) : Nat → List α → List String
  | _, [] => []
  | i, x :: xs => f i x :: enumLines f (i + 1) xs

/-- The menu built in the (dead) `LLM_RESULTS:` branch. -/
def menuLLM (q : String) (ci : List ParsedCand) : String :=
  let lines := enumLines
    (fun i c => "  " ++ (toString (i + 1) ++ (". " ++ (c.name ++ (" (" ++ (c.category ++
      (") - 匹配关键词: " ++ (c.matchedKeyword.getD "N/A")))))))) 0 ci
  "🔍 根据您的需求「" ++ (q ++ ("」，找到以下相关地点：\n" ++
    (String.intercalate "\n" lines ++
    ("\n\n请回复数字（1-" ++ (toString ci.length ++ "）选择，或回复「否」重新输入。")))))

/-- The menu built in the (dead) `NEED_CONFIRM:` branch. -/
def menuConfirm (env : Env) (ci : List ParsedCand) : String :=
  let lines := enumLines
    (fun i c => "  " ++ (toString (i + 1) ++ (". " ++ (c.name ++ (" (" ++ (c.category ++
      (") - 相似度 " ++ env.pct c.score))))))) 0 ci
  "未找到完全匹配的结果，以下是最接近的选项：\n" ++
    (String.intercalate "\n" lines ++
    ("\n\n请问您要找的是「" ++ ((ci.headD ⟨"", "", 0, none, none⟩).name ++
    ("」吗？\n回复「1」或「是」选择第一个，「2」-「" ++
    (toString ci.length ++ "」选择其他选项，「否」重新输入。")))))

/-- The fall-through tail of `handle_user_query`: run the tool on the
inbound text, then test the result for the `LLM_RESULTS:` /
`NEED_CONFIRM:` markers (which would seed the pending state) and
otherwise return the tool's string with the pending state untouched. -/
def freshResolve (env : Env) (p : Pending) (q : String) : Pending × String :=
  let result := tool_query_location env q
  if pyStartswith result "LLM_RESULTS:" then
    let ci := env.parseCands (result.replace "LLM_RESULTS:" "")
    ({ candidates := ci.map (fun c => (c.name, c.category, c.score))
       query := q
       subcategory := if ci.isEmpty then none else (ci.headD ⟨"", "", 0, none, none⟩).subcategory },
     menuLLM q ci)
  else if pyStartswith result "NEED_CONFIRM:" then
    let ci := env.parseCands (result.replace "NEED_CONFIRM:" "")
    ({ p with candidates := ci.map (fun c => (c.name, c.category, c.score)), query := q },
     menuConfirm env ci)
  else (p, result)

/-- `handle_user_query(q)` as a step of the confirmation machine: given
the current `pending_confirmation` value and the inbound text, produce
the next value and the reply. A live pending list intercepts accept /
reject / in-range selection tokens; everything else (including an
out-of-range selection) falls through to a fresh resolution. -/
def handle_user_query (env : Env) (p : Pending) (q : String) : Pending × String :=
  if p.candidates.isEmpty then freshResolve env p q
  else if confirmTokens.contains (pyLower (pyStrip q)) then
    (emptyPending,
      locateSelected env (p.candidates.headD ("", "", 0)).1
        (p.candidates.headD ("", "", 0)).2.1 p.subcategory)
  else if rejectTokens.contains (pyLower (pyStrip q)) then
    (emptyPending, "好的，请重新描述您要找的地点。")
  else if selectionTokens.contains (pyStrip q) then
    if pyToNat (pyStrip q) - 1 < p.candidates.length then
      (emptyPending,
        locateSelected env (p.candidates.getD (pyToNat (pyStrip q) - 1) ("", "", 0)).1
          (p.candidates.getD (pyToNat (pyStrip q) - 1) ("", "", 0)).2.1 p.subcategory)
    else freshResolve env p q
  else freshResolve env p q

/-- Concrete catalog fixture: one building, one facility. -/
def entMB : Entity := ⟨"Main Building", []⟩

/-- Concrete catalog fixture: the facility entry. -/
def entML : Entity := ⟨"Main Library", []⟩

/-- Concrete two-entity catalog. -/
def cat0 : Catalog := ⟨[entMB], [], [entML]⟩

/-- Concrete catalog with an alias (`"gym"` on the building) that
collides with the facility's canonical name `"Gym"`. -/
def cat4 : Catalog := ⟨[⟨"Main Building", ["main", "gym"]⟩], [], [⟨"Gym", []⟩]⟩

/-- Concrete environment: catalog `cat0`, no facilities file, the
seeded cache, an unreachable oracle, an always-succeeding map client,
and the all-zero similarity. -/
def env0 : Env :=
  { C := cat0, fac := none, cache := INTENT_CACHE, oracle := fun _ => none,
    mapOk := fun _ _ _ => true, sim := fun _ _ => 0,
    parseCands := fun _ => [], pct := fun _ => "" }

/-- `env0` with every similarity ratio `1/2` (between the two policy
thresholds). -/
def env1 : Env := { env0 with sim := fun _ _ => mkRat 1 2 }

/-- `env0` over the alias-collision catalog `cat4`. -/
def env4 : Env := { env0 with C := cat4 }

/-- A 16-character query: not matched by anything in `cat0` and too
long for the LLM stage. -/
def q16 : String := "zzzzzzzzzzzzzzzz"

/-- A pending slot as conversation 2 would have left it. -/
def sessionTwoPending : Pending :=
  ⟨[("Session Two Hall", "building", mkRat 9 10)], "q2", none⟩

/-- A non-empty prefix never starts with a marker whose first character
differs. -/
theorem isPrefixOf_head_ne (c d : Char) (cs ds : List Char) (h : (d == c) = false) :
    (d :: ds).isPrefixOf (c :: cs) = false := by
  simp [List.isPrefixOf, h]

/-- A string starting with a literal whose first character differs from
the marker's first character does not start with the marker. -/
theorem pyStartswith_append_false (lit x p : String)
    (h : (match lit.data.head?, p.data.head? with
          | some c, some d => d == c
          | _, _ => true) = false) :
    pyStartswith (lit ++ x) p = false := by
  unfold pyStartswith
  rw [String.data_append]
  cases hld : lit.data with
  | nil => rw [hld] at h; cases hpd : p.data <;> rw [hpd] at h <;> cases h
  | cons a as =>
    cases hpd : p.data with
    | nil => rw [hld, hpd] at h; cases h
    | cons b bs =>
      rw [hld, hpd] at h
      simp only [List.head?] at h
      simpa using isPrefixOf_head_ne a b (as ++ x.data) bs h

/-- Every string `tool_query_location` can return starts with `✓`, `⚠`
or `{` — never with the `LLM_RESULTS:` / `NEED_CONFIRM:` markers that
`handle_user_query` tests for. -/
theorem renderResult_marker_free (r : ToolResult) :
    pyStartswith (renderResult r) "LLM_RESULTS:" = false
    ∧ pyStartswith (renderResult r) "NEED_CONFIRM:" = false := by
  cases r <;>
    exact ⟨pyStartswith_append_false _ _ _ (by decide),
      pyStartswith_append_false _ _ _ (by decide)⟩

/-- Consequently the fall-through tail of `handle_user_query` always
takes its final branch: the pending state is returned untouched together
with the tool's string. -/
theorem freshResolve_eq (env : Env) (p : Pending) (q : String) :
    freshResolve env p q = (p, tool_query_location env q) := by
  have h := renderResult_marker_free (toolOutcome env q)
  simp [freshResolve, tool_query_location, h.1, h.2]

/-- With a live pending list, a confirm token selects the head
candidate via the map client and clears the slot. -/
theorem handle_confirm_eq (env : Env) (p : Pending) (q : String)
    (hne : p.candidates.isEmpty = false)
    (hc : confirmTokens.contains (pyLower (pyStrip q)) = true) :
    handle_user_query env p q
      = (emptyPending,
          locateSelected env (p.candidates.headD ("", "", 0)).1
            (p.candidates.headD ("", "", 0)).2.1 p.subcategory) := by
  unfold handle_user_query
  rw [hne]
  rw [if_neg (by simp), hc, if_pos rfl]

/-- With a live pending list, a reject token clears the slot with the
fixed apology. -/
theorem handle_reject_eq (env : Env) (p : Pending) (q : String)
    (hne : p.candidates.isEmpty = false)
    (hc : confirmTokens.contains (pyLower (pyStrip q)) = false)
    (hr : rejectTokens.contains (pyLower (pyStrip q)) = true) :
    handle_user_query env p q = (emptyPending, "好的，请重新描述您要找的地点。") := by
  unfold handle_user_query
  rw [hne]
  rw [if_neg (by simp), hc, if_neg (by simp), hr, if_pos rfl]

/-- With a live pending list, an in-range selection token selects the
indexed candidate via the map client and clears the slot. -/
theorem handle_select_eq (env : Env) (p : Pending) (q : String)
    (hne : p.candidates.isEmpty = false)
    (hc : confirmTokens.contains (pyLower (pyStrip q)) = false)
    (hr : rejectTokens.contains (pyLower (pyStrip q)) = false)
    (hs : selectionTokens.contains (pyStrip q) = true)
    (hidx : pyToNat (pyStrip q) - 1 < p.candidates.length) :
    handle_user_query env p q
      = (emptyPending,
          locateSelected env (p.candidates.getD (pyToNat (pyStrip q) - 1) ("", "", 0)).1
            (p.candidates.getD (pyToNat (pyStrip q) - 1) ("", "", 0)).2.1 p.subcategory) := by
  unfold handle_user_query
  rw [hne]
  rw [if_neg (by simp), hc, if_neg (by simp), hr, if_neg (by simp), hs, if_pos rfl,
    if_pos hidx]

/-- Any other reply (no recognized token, or an out-of-range selection)
falls through to a fresh resolution with the pending slot untouched. -/
theorem handle_fresh_eq (env : Env) (p : Pending) (q : String)
    (hc : confirmTokens.contains (pyLower (pyStrip q)) = false)
    (hr : rejectTokens.contains (pyLower (pyStrip q)) = false)
    (hs : selectionTokens.contains (pyStrip q) = true →
        p.candidates.length ≤ pyToNat (pyStrip q) - 1) :
    handle_user_query env p q = (p, tool_query_location env q) := by
  unfold handle_user_query
  by_cases hne : p.candidates.isEmpty = true
  · rw [if_pos hne, freshResolve_eq]
  · rw [if_neg hne, hc, if_neg (by simp), hr, if_neg (by simp)]
    by_cases hsel : selectionTokens.contains (pyStrip q) = true
    · rw [hsel, if_pos rfl, if_neg (Nat.not_lt.mpr (hs hsel)), freshResolve_eq]
    · rw [if_neg hsel, freshResolve_eq]

/-- C1: the claim says a `Candidates` resolution outcome is stored as
the pending confirmation. In the code it never is: `tool_query_location`
returns JSON payloads, while `handle_user_query` only stores pending
candidates behind `LLM_RESULTS:` / `NEED_CONFIRM:` marker tests that no
tool output ever satisfies. First conjunct: no turn ever makes the
pending slot anything but its old value or the cleared value (in
particular, starting from `Idle` the machine stays in `Idle` forever).
Remaining conjuncts: at the concrete failing input (`env1`, `q16`) the
resolution is a `Candidates` outcome, yet the turn returns the raw JSON
and leaves the pending slot empty. -/
theorem c1_thm :
    (∀ (env : Env) (p : Pending) (q : String),
        (handle_user_query env p q).1 = p ∨ (handle_user_query env p q).1 = emptyPending)
    ∧ toolOutcome env1 q16
        = .confirmCandidates
            [("Main Building", "building", mkRat 1 2), ("Main Library", "facilitie", mkRat 1 2)]
    ∧ handle_user_query env1 emptyPending q16
        = (emptyPending, renderResult (.confirmCandidates
            [("Main Building", "building", mkRat 1 2), ("Main Library", "facilitie", mkRat 1 2)])) := by
  refine ⟨?_, by decide, by rfl⟩
  intro env p q
  unfold handle_user_query
  split
  · rw [freshResolve_eq]; left; rfl
  · split
    · right; rfl
    · split
      · right; rfl
      · split
        · split
          · right; rfl
          · rw [freshResolve_eq]; left; rfl
        · rw [freshResolve_eq]; left; rfl

/-- C2 counterexample: the pending slot is one process-wide value with
no session key — the reply `"1"` sent by any conversation consumes
whatever the slot holds (here, session 2's candidate list), and a
subsequent `"yes"` from session 2 no longer selects its candidate but is
re-resolved from scratch. -/
theorem c2_counterexample :
    sessionTwoPending.candidates ≠ []
    ∧ handle_user_query env0 sessionTwoPending "1"
        = (emptyPending, "✓ 已为您找到：Session Two Hall（building）")
    ∧ (handle_user_query env0 (handle_user_query env0 sessionTwoPending "1").1 "yes").2
        = renderResult (.unresolvedOutcome "yes") :=
  ⟨by decide, by rfl, by rfl⟩

/-- C2 amended: the pending confirmation is a single process-wide slot
shared by all conversations (the `/map_chat` entry point passes no
session identifier); a confirm reply in any conversation reads the head
of, and clears, that one shared slot, whichever conversation filled
it. -/
theorem c2_thm (env : Env) (p : Pending) (q n c : String) (s : ℚ)
    (rest : List (String × String × ℚ))
    (hp : p.candidates = (n, c, s) :: rest)
    (hq : confirmTokens.contains (pyLower (pyStrip q)) = true) :
    (handle_user_query env p q).1 = emptyPending
    ∧ (handle_user_query env p q).2 = locateSelected env n c p.subcategory := by
  rw [handle_confirm_eq env p q (by rw [hp]; rfl) hq, hp]
  exact ⟨rfl, rfl⟩

/-- C2 witness: the amended behaviour at a concrete input — session 1's
`"1"` consumes the slot session 2 had filled. -/
theorem c2_witness :
    (handle_user_query env0 sessionTwoPending "1").1 = emptyPending
    ∧ (handle_user_query env0 sessionTwoPending "1").2
        = locateSelected env0 "Session Two Hall" "building" sessionTwoPending.subcategory :=
  c2_thm env0 sessionTwoPending "1" "Session Two Hall" "building" (mkRat 9 10) []
    (by rfl) (by decide)

/-- C6: from a live pending list `[A, B, C]`, the reply `"2"` emits
candidate `B` (the map is queried for it; with a succeeding map client
the reply names `B`) and clears the pending slot; `"no"` clears the slot
with no entity emitted; `"0"` behaves identically to `"no"`. -/
theorem c6_thm (env : Env) (a2 b2 c2 : String × String × ℚ) (oq : String) (sub : Option String)
    (hmap : ∀ x y z, env.mapOk x y z = true) :
    (handle_user_query env ⟨[a2, b2, c2], oq, sub⟩ "2"
        = (emptyPending, "✓ 已为您找到：" ++ (b2.1 ++ ("（" ++ (b2.2.1 ++ "）")))))
    ∧ (handle_user_query env ⟨[a2, b2, c2], oq, sub⟩ "no"
        = (emptyPending, "好的，请重新描述您要找的地点。"))
    ∧ (handle_user_query env ⟨[a2, b2, c2], oq, sub⟩ "0"
        = handle_user_query env ⟨[a2, b2, c2], oq, sub⟩ "no") := by
  refine ⟨?_, ?_, ?_⟩
  · rw [handle_select_eq env ⟨[a2, b2, c2], oq, sub⟩ "2" rfl (by decide) (by decide)
      (by decide) (by show pyToNat (pyStrip "2") - 1 < 3; decide)]
    show (emptyPending, locateSelected env b2.1 b2.2.1 sub) = _
    rw [locateSelected, if_pos (hmap b2.1 b2.2.1 sub)]
  · exact handle_reject_eq env ⟨[a2, b2, c2], oq, sub⟩ "no" rfl (by decide) (by decide)
  · rw [handle_reject_eq env ⟨[a2, b2, c2], oq, sub⟩ "0" rfl (by decide) (by decide),
      handle_reject_eq env ⟨[a2, b2, c2], oq, sub⟩ "no" rfl (by decide) (by decide)]

/-- C6 witness: the three transitions at a concrete environment and
candidate list. -/
theorem c6_witness :
    (handle_user_query env0 ⟨[("A", "building", 1), ("B", "building", 1), ("C", "building", 1)], "x", none⟩ "2"
        = (emptyPending, "✓ 已为您找到：B（building）"))
    ∧ (handle_user_query env0 ⟨[("A", "building", 1), ("B", "building", 1), ("C", "building", 1)], "x", none⟩ "no"
        = (emptyPending, "好的，请重新描述您要找的地点。"))
    ∧ (handle_user_query env0 ⟨[("A", "building", 1), ("B", "building", 1), ("C", "building", 1)], "x", none⟩ "0"
        = handle_user_query env0 ⟨[("A", "building", 1), ("B", "building", 1), ("C", "building", 1)], "x", none⟩ "no") :=
  c6_thm env0 ("A", "building", 1) ("B", "building", 1) ("C", "building", 1) "x" none
    (fun _ _ _ => rfl)

/-- C10: with a live pending list, a reply that is no confirm token, no
reject token and no in-range selection is re-resolved as a fresh query,
and the pending slot (candidates, original query, subcategory) is left
exactly as it was — so a subsequent `"yes"` still selects the first
candidate of the old list. -/
theorem c10_thm (env : Env) (p : Pending) (q n c : String) (s : ℚ)
    (rest : List (String × String × ℚ))
    (hp : p.candidates = (n, c, s) :: rest)
    (hcf : confirmTokens.contains (pyLower (pyStrip q)) = false)
    (hrj : rejectTokens.contains (pyLower (pyStrip q)) = false)
    (hsel : selectionTokens.contains (pyStrip q) = true →
        p.candidates.length ≤ pyToNat (pyStrip q) - 1)
    (hmap : ∀ x y z, env.mapOk x y z = true) :
    handle_user_query env p q = (p, tool_query_location env q)
    ∧ (handle_user_query env (handle_user_query env p q).1 "yes").2
        = "✓ 已为您找到：" ++ (n ++ ("（" ++ (c ++ "）"))) := by
  have h1 := handle_fresh_eq env p q hcf hrj hsel
  refine ⟨h1, ?_⟩
  rw [h1]
  show (handle_user_query env p "yes").2 = _
  rw [handle_confirm_eq env p "yes" (by rw [hp]; rfl) (by decide), hp]
  show locateSelected env n c p.subcategory = _
  rw [locateSelected, if_pos (hmap n c p.subcategory)]

/-- C10 witness: a free-text reply with a live pending slot at a
concrete environment; the slot survives and `"yes"` then selects its
head. -/
theorem c10_witness :
    handle_user_query env0 ⟨[("Main Library", "building", mkRat 1 2)], "x", none⟩ "blah blah blah blah"
        = (⟨[("Main Library", "building", mkRat 1 2)], "x", none⟩,
            tool_query_location env0 "blah blah blah blah")
    ∧ (handle_user_query env0
          (handle_user_query env0 ⟨[("Main Library", "building", mkRat 1 2)], "x", none⟩ "blah blah blah blah").1
          "yes").2
        = "✓ 已为您找到：" ++ ("Main Library" ++ ("（" ++ ("building" ++ "）"))) :=
  c10_thm env0 ⟨[("Main Library", "building", mkRat 1 2)], "x", none⟩ "blah blah blah blah"
    "Main Library" "building" (mkRat 1 2) [] (by rfl) (by decide) (by decide)
    (by decide) (fun _ _ _ => rfl)

/-- The first element of the scan for which the selector fires is the
one returned, regardless of what follows it. -/
theorem findSome?_first {α β : Type _} (f : α → Option β) (pre post : List α) (x : α) (b : β)
    (hpre : ∀ y ∈ pre, f y = none) (hx : f x = some b) :
    (pre ++ x :: post).findSome? f = some b := by
  induction pre with
  | nil => simp [List.findSome?_cons, hx]
  | cons y ys ih =>
    have hy : f y = none := hpre y (List.mem_cons_self y ys)
    simp only [List.cons_append, List.findSome?_cons, hy]
    exact ih fun z hz => hpre z (List.mem_cons_of_mem y hz)

/-- C3 counterexample: over `cat0` the query `"Main"` is contained in
the canonical name `"Main Building"` — the spec's matcher (both
directions tried) returns it, but the code's matcher tests only whether
a name/alias is contained in the query, so it returns nothing. -/
theorem c3_counterexample :
    specMatchFuzzy cat0 "Main" = some ("Main Building", "building")
    ∧ local_match_fuzzy cat0 "Main" = none := by
  decide

/-- C3 amended: the fuzzy matcher returns the first entity in scan order
(Building, Department, Facility; catalog order) whose lower-cased
canonical name or alias is a substring of the lower-cased query — only
that containment direction, and the query is lower-cased but not
trimmed; when no entity's name or alias is contained in the query it
returns nothing. -/
theorem c3_thm :
    (∀ (C : Catalog) (q : String) (pre post : List (Entity × String)) (e : Entity) (cn : String),
      entitiesInOrder C = pre ++ (e, cn) :: post →
      (∀ x ∈ pre, entityMatchesFuzzy (pyLower q) x.1 = false) →
      entityMatchesFuzzy (pyLower q) e = true →
      local_match_fuzzy C q = some (e.name, cn))
    ∧ (∀ (C : Catalog) (q : String),
      (∀ x ∈ entitiesInOrder C, entityMatchesFuzzy (pyLower q) x.1 = false) →
      local_match_fuzzy C q = none) := by
  constructor
  · intro C q pre post e cn hsplit hpre he
    unfold local_match_fuzzy
    rw [hsplit]
    exact findSome?_first _ pre post (e, cn) _
      (fun y hy => by simp [hpre y hy]) (by simp [he])
  · intro C q h
    unfold local_match_fuzzy
    exact List.findSome?_eq_none_iff.mpr fun x hx => by simp [h x hx]

/-- C3 witness: the amended matcher at concrete inputs — a sentence
containing the canonical name resolves to it, and an unrelated query
resolves to nothing. -/
theorem c3_witness :
    local_match_fuzzy cat0 "Where is Main Building" = some ("Main Building", "building")
    ∧ local_match_fuzzy cat0 "qqq" = none :=
  ⟨c3_thm.1 cat0 "Where is Main Building" [] [(entML, "facilitie")] entMB "building"
      (by decide) (by decide) (by decide),
    c3_thm.2 cat0 "qqq" (by decide)⟩

/-- C4 counterexample: in `cat4` the building `"Main Building"` carries
the alias `"gym"`, which collides with the facility `"Gym"`'s canonical
name; resolving the facility's own canonical name `"Gym"` therefore
yields the building, not the facility — `resolve(E.canonicalName) =
Resolved{E, exact}` fails for `E = Gym`. -/
theorem c4_counterexample :
    (⟨"Gym", []⟩ : Entity) ∈ cat4.facilities
    ∧ local_match_exact cat4 "Gym" = some ("Main Building", "building")
    ∧ toolOutcome env4 "Gym" = .exactFound "Main Building" "building" := by
  decide

/-- C4 amended: resolving a query equal — case-insensitively, after
trimming — to an entity's canonical name or alias returns
`Resolved{·, exact}` for the first entity in scan order whose canonical
name or any alias equals the normalized query; this is the entity
itself whenever no earlier-scanned entity's name or alias collides with
the matched name/alias. -/
theorem c4_thm :
    (∀ (C : Catalog) (q : String) (pre post : List (Entity × String)) (e : Entity) (cn : String),
      entitiesInOrder C = pre ++ (e, cn) :: post →
      (∀ x ∈ pre, entityMatchesExact (pyStrip (pyLower q)) x.1 = false) →
      (pyStrip (pyLower q) = pyLower e.name
        ∨ ∃ a ∈ e.aliases, pyStrip (pyLower q) = pyLower a) →
      local_match_exact C q = some (e.name, cn))
    ∧ (∀ (env : Env) (q : String) (pre post : List (Entity × String)) (e : Entity) (cn : String),
      entitiesInOrder env.C = pre ++ (e, cn) :: post →
      (∀ x ∈ pre, entityMatchesExact (pyStrip (pyLower q)) x.1 = false) →
      (pyStrip (pyLower q) = pyLower e.name
        ∨ ∃ a ∈ e.aliases, pyStrip (pyLower q) = pyLower a) →
      env.mapOk e.name cn none = true →
      toolOutcome env q = .exactFound e.name cn) := by
  have key : ∀ (C : Catalog) (q : String) (pre post : List (Entity × String)) (e : Entity)
      (cn : String),
      entitiesInOrder C = pre ++ (e, cn) :: post →
      (∀ x ∈ pre, entityMatchesExact (pyStrip (pyLower q)) x.1 = false) →
      (pyStrip (pyLower q) = pyLower e.name
        ∨ ∃ a ∈ e.aliases, pyStrip (pyLower q) = pyLower a) →
      local_match_exact C q = some (e.name, cn) := by
    intro C q pre post e cn hsplit hpre he
    have hm : entityMatchesExact (pyStrip (pyLower q)) e = true := by
      unfold entityMatchesExact
      rcases he with h | ⟨a, ha, h⟩
      · simp [h]
      · rw [h]
        simp only [Bool.or_eq_true, List.any_eq_true]
        exact Or.inr ⟨a, ha, by simp⟩
    unfold local_match_exact
    rw [hsplit]
    exact findSome?_first _ pre post (e, cn) _
      (fun y hy => by simp [hpre y hy]) (by simp [hm])
  refine ⟨key, ?_⟩
  intro env q pre post e cn hsplit hpre he hmap
  have ha := key env.C q pre post e cn hsplit hpre he
  unfold toolOutcome
  rw [ha]
  dsimp only
  rw [if_pos hmap]

/-- C4 witness: in `cat4`, the alias `"main"` (upper-cased, padded with
whitespace) resolves to the building that owns it, both at the matcher
and at the orchestrator. -/
theorem c4_witness :
    local_match_exact cat4 "  MAIN " = some ("Main Building", "building")
    ∧ toolOutcome env4 "  MAIN " = .exactFound "Main Building" "building" :=
  ⟨c4_thm.1 cat4 "  MAIN " [] [(⟨"Gym", []⟩, "facilitie")] ⟨"Main Building", ["main", "gym"]⟩
      "building" (by decide) (by decide) (Or.inr ⟨"main", by decide, by decide⟩),
    c4_thm.2 env4 "  MAIN " [] [(⟨"Gym", []⟩, "facilitie")] ⟨"Main Building", ["main", "gym"]⟩
      "building" (by decide) (by decide) (Or.inr ⟨"main", by decide, by decide⟩) rfl⟩

/-- When every oracle reply is a failure or has an empty keyword list,
the retry loop yields nothing, whatever the attempt budget. -/
theorem firstUsableReply_none (oracle : Nat → Option RawIntent)
    (h : ∀ i r, oracle i = some r → r.keywords = []) :
    ∀ (fuel i : Nat), firstUsableReply oracle i fuel = none := by
  intro fuel
  induction fuel with
  | zero => intro i; rfl
  | succ n ih =>
    intro i
    unfold firstUsableReply
    cases hi : oracle i with
    | none => exact ih (i + 1)
    | some r =>
      dsimp only
      rw [h i r hi]
      simp only [List.isEmpty_nil, if_true]
      exact ih (i + 1)

/-- C7: for a query that is not cached, whose lower-casing contains a
parking trigger word and no trigger of the six earlier rules, an oracle
whose every reply is unreachable or unusable makes the extractor fall
back to the fixed parking rule: the result carries the keyword set
`["parking", "停车", "泊车", "car park"]` (containing `"parking"`) with
category hint `facility`. The extractor is a total function into
`IntentData` — the model has no error case, mirroring the code's
catch-all handlers, so no transport or oracle error can reach the
caller. -/
theorem c7_thm (cache : List (String × IntentData)) (oracle : Nat → Option RawIntent)
    (q : String)
    (hcache : cache.find? (fun kv => kv.1 == pyStrip q) = none)
    (horacle : ∀ i r, oracle i = some r → r.keywords = [])
    (htrig : containsAny (pyLower q) parkingTriggers = true)
    (h1 : containsAny (pyLower q) sportTriggers = false)
    (h2 : containsAny (pyLower q) restTriggers = false)
    (h3 : containsAny (pyLower q) diningTriggers = false)
    (h4 : containsAny (pyLower q) studyTriggers = false)
    (h5 : containsAny (pyLower q) healthTriggers = false)
    (h6 : containsAny (pyLower q) printTriggers = false) :
    (extract_intent_with_llm cache oracle q).1
      = ⟨"find_parking", ["parking", "停车", "泊车", "car park"], "facility", some "Parking"⟩
    ∧ "parking" ∈ (extract_intent_with_llm cache oracle q).1.keywords
    ∧ (extract_intent_with_llm cache oracle q).1.categoryHint = "facility" := by
  have hfall : fallback_intent_extraction q
      = ⟨"find_parking", ["parking", "停车", "泊车", "car park"], "facility", some "Parking"⟩ := by
    unfold fallback_intent_extraction
    dsimp only
    rw [h1, if_neg (by simp), h2, if_neg (by simp), h3, if_neg (by simp),
      h4, if_neg (by simp), h5, if_neg (by simp), h6, if_neg (by simp),
      htrig, if_pos rfl]
  have hmain : extract_intent_with_llm cache oracle q
      = (fallback_intent_extraction q, cache) := by
    unfold extract_intent_with_llm
    rw [hcache, firstUsableReply_none oracle horacle 2 0]
  rw [hmain, hfall]
  exact ⟨rfl, List.mem_cons_self _ _, rfl⟩

/-- C7 witness: the uncached parking query `"哪里可以泊车"` against a
fully failing oracle. -/
theorem c7_witness :
    (extract_intent_with_llm INTENT_CACHE (fun _ => none) "哪里可以泊车").1
      = ⟨"find_parking", ["parking", "停车", "泊车", "car park"], "facility", some "Parking"⟩
    ∧ "parking" ∈ (extract_intent_with_llm INTENT_CACHE (fun _ => none) "哪里可以泊车").1.keywords
    ∧ (extract_intent_with_llm INTENT_CACHE (fun _ => none) "哪里可以泊车").1.categoryHint
        = "facility" :=
  c7_thm INTENT_CACHE (fun _ => none) "哪里可以泊车" (by decide)
    (fun i r h => by cases h) (by decide) (by decide) (by decide) (by decide)
    (by decide) (by decide) (by decide)

/-- Membership in the bucket branch output. -/
theorem bucketScan_mem (kw0 : String) :
    ∀ (items seen : List String) (r : String × String × String),
      r ∈ (bucketScan kw0 items seen).1
        ↔ r.1 ∈ items ∧ r.1 ∉ seen ∧ r.2.1 = "facility" ∧ r.2.2 = kw0 := by
  intro items
  induction items with
  | nil => intro seen r; simp [bucketScan]
  | cons n rest ih =>
    intro seen r
    unfold bucketScan
    by_cases h : seen.contains n = true
    · rw [if_pos h]
      rw [ih seen r]
      have hn : n ∈ seen := by simpa using h
      constructor
      · rintro ⟨h1, h2, h3, h4⟩
        exact ⟨List.mem_cons_of_mem n h1, h2, h3, h4⟩
      · rintro ⟨h1, h2, h3, h4⟩
        rcases List.mem_cons.mp h1 with h1 | h1
        · exact absurd (h1 ▸ hn) h2
        · exact ⟨h1, h2, h3, h4⟩
    · rw [if_neg h]
      dsimp only
      have hn : n ∉ seen := by simpa using h
      constructor
      · intro hr
        rcases List.mem_cons.mp hr with hr | hr
        · subst hr
          exact ⟨List.mem_cons_self n rest, hn, rfl, rfl⟩
        · obtain ⟨h1, h2, h3, h4⟩ := (ih (n :: seen) r).mp hr
          exact ⟨List.mem_cons_of_mem n h1,
            fun hs => h2 (List.mem_cons_of_mem n hs), h3, h4⟩
      · rintro ⟨h1, h2, h3, h4⟩
        rcases List.mem_cons.mp h1 with h1 | h1
        · obtain ⟨r1, r2, r3⟩ := r
          simp only at h1 h3 h4
          subst h1
          subst h3
          subst h4
          exact List.mem_cons_self _ _
        · by_cases he : r.1 = n
          · obtain ⟨r1, r2, r3⟩ := r
            simp only at he h3 h4
            subst he
            subst h3
            subst h4
            exact List.mem_cons_self _ _
          · exact List.mem_cons_of_mem _ ((ih (n :: seen) r).mpr
              ⟨h1, fun hs => (List.mem_cons.mp hs).elim he h2, h3, h4⟩)

/-- The bucket branch output has pairwise-distinct names. -/
theorem bucketScan_nodup (kw0 : String) :
    ∀ (items seen : List String),
      ((bucketScan kw0 items seen).1.map (fun r => r.1)).Nodup := by
  intro items
  induction items with
  | nil => intro seen; simp [bucketScan]
  | cons n rest ih =>
    intro seen
    unfold bucketScan
    by_cases h : seen.contains n = true
    · rw [if_pos h]; exact ih seen
    · rw [if_neg h]
      dsimp only
      simp only [List.map_cons, List.nodup_cons]
      refine ⟨?_, ih (n :: seen)⟩
      intro hmem
      obtain ⟨r, hr, hrn⟩ := List.mem_map.mp hmem
      obtain ⟨_, h2, _, _⟩ := (bucketScan_mem kw0 rest (n :: seen) r).mp hr
      exact h2 (hrn ▸ List.mem_cons_self n seen)

/-- Everything the inner keyword scan emits was not seen on entry. -/
theorem scanEntitiesKw_fresh (kwOrig kwl : String) :
    ∀ (ents : List (Entity × String)) (seen : List String) (r : String × String × String),
      r ∈ (scanEntitiesKw kwOrig kwl ents seen).1 → r.1 ∉ seen := by
  intro ents
  induction ents with
  | nil => intro seen r hr; simp [scanEntitiesKw] at hr
  | cons ec rest ih =>
    intro seen r hr
    unfold scanEntitiesKw at hr
    by_cases h1 : seen.contains ec.1.name = true
    · rw [if_pos h1] at hr
      exact ih seen r hr
    · rw [if_neg h1] at hr
      by_cases h2 : entityMatchesKeyword kwl ec.1 = true
      · rw [if_pos h2] at hr
        dsimp only at hr
        rcases List.mem_cons.mp hr with hr | hr
        · subst hr
          simpa using h1
        · intro hs
          exact ih (ec.1.name :: seen) r hr (List.mem_cons_of_mem _ hs)
      · rw [if_neg h2] at hr
        exact ih seen r hr

/-- The seen set after the inner keyword scan holds exactly the old seen
set plus the emitted names. -/
theorem scanEntitiesKw_seen_mem (kwOrig kwl : String) :
    ∀ (ents : List (Entity × String)) (seen : List String) (x : String),
      x ∈ (scanEntitiesKw kwOrig kwl ents seen).2
        ↔ (x ∈ seen ∨ x ∈ (scanEntitiesKw kwOrig kwl ents seen).1.map (fun r => r.1)) := by
  intro ents
  induction ents with
  | nil => intro seen x; simp [scanEntitiesKw]
  | cons ec rest ih =>
    intro seen x
    unfold scanEntitiesKw
    by_cases h1 : seen.contains ec.1.name = true
    · rw [if_pos h1]; exact ih seen x
    · rw [if_neg h1]
      by_cases h2 : entityMatchesKeyword kwl ec.1 = true
      · rw [if_pos h2]
        dsimp only
        rw [ih (ec.1.name :: seen) x]
        simp only [List.mem_cons, List.map_cons]
        constructor
        · rintro ((h | h) | h)
          · right; left; exact h
          · left; exact h
          · right; right; exact h
        · rintro (h | h)
          · left; right; exact h
          · rcases h with h | h
            · left; left; exact h
            · right; exact h
      · rw [if_neg h2]; exact ih seen x

/-- The inner keyword scan emits pairwise-distinct names. -/
theorem scanEntitiesKw_nodup (kwOrig kwl : String) :
    ∀ (ents : List (Entity × String)) (seen : List String),
      ((scanEntitiesKw kwOrig kwl ents seen).1.map (fun r => r.1)).Nodup := by
  intro ents
  induction ents with
  | nil => intro seen; simp [scanEntitiesKw]
  | cons ec rest ih =>
    intro seen
    unfold scanEntitiesKw
    by_cases h1 : seen.contains ec.1.name = true
    · rw [if_pos h1]; exact ih seen
    · rw [if_neg h1]
      by_cases h2 : entityMatchesKeyword kwl ec.1 = true
      · rw [if_pos h2]
        dsimp only
        simp only [List.map_cons, List.nodup_cons]
        refine ⟨?_, ih (ec.1.name :: seen)⟩
        intro hmem
        obtain ⟨r, hr, hrn⟩ := List.mem_map.mp hmem
        exact scanEntitiesKw_fresh kwOrig kwl rest (ec.1.name :: seen) r hr
          (hrn ▸ List.mem_cons_self _ _)
      · rw [if_neg h2]; exact ih seen

/-- Everything the outer keyword scan emits was not seen on entry. -/
theorem scanKeywords_fresh (ents : List (Entity × String)) :
    ∀ (kws seen : List String) (r : String × String × String),
      r ∈ scanKeywords ents kws seen → r.1 ∉ seen := by
  intro kws
  induction kws with
  | nil => intro seen r hr; simp [scanKeywords] at hr
  | cons kw rest ih =>
    intro seen r hr
    unfold scanKeywords at hr
    by_cases h1 : pyStrip (pyLower kw) = ""
    · rw [if_pos h1] at hr
      exact ih seen r hr
    · rw [if_neg h1] at hr
      dsimp only at hr
      rcases List.mem_append.mp hr with hr | hr
      · exact scanEntitiesKw_fresh kw (pyStrip (pyLower kw)) ents seen r hr
      · intro hs
        exact ih _ r hr
          ((scanEntitiesKw_seen_mem kw (pyStrip (pyLower kw)) ents seen r.1).mpr (Or.inl hs))

/-- The outer keyword scan emits pairwise-distinct names: the general
search is deduplicated by canonical name. -/
theorem scanKeywords_nodup (ents : List (Entity × String)) :
    ∀ (kws seen : List String),
      ((scanKeywords ents kws seen).map (fun r => r.1)).Nodup := by
  intro kws
  induction kws with
  | nil => intro seen; simp [scanKeywords]
  | cons kw rest ih =>
    intro seen
    unfold scanKeywords
    by_cases h1 : pyStrip (pyLower kw) = ""
    · rw [if_pos h1]; exact ih seen
    · rw [if_neg h1]
      dsimp only
      rw [List.map_append, List.nodup_append]
      refine ⟨scanEntitiesKw_nodup kw (pyStrip (pyLower kw)) ents seen, ih _, ?_⟩
      intro x hx hx2
      obtain ⟨r, hr, hrn⟩ := List.mem_map.mp hx2
      have hfresh := scanKeywords_fresh ents rest _ r hr
      apply hfresh
      rw [scanEntitiesKw_seen_mem kw (pyStrip (pyLower kw)) ents seen r.1]
      right
      rw [hrn]
      exact hx

/-- Whatever the inputs, `search_by_keywords` output names are pairwise
distinct (deduplication by canonical name, first occurrence kept). -/
theorem search_names_nodup (fac : Option Facilities) (C : Catalog)
    (kws : List String) (sub : Option String) :
    ((search_by_keywords fac C kws sub).map (fun r => r.1)).Nodup := by
  unfold search_by_keywords
  cases sub with
  | none => exact scanKeywords_nodup _ _ _
  | some s =>
    cases fac with
    | none => exact scanKeywords_nodup _ _ _
    | some F =>
      dsimp only
      by_cases hs : (s == "") = true
      · rw [if_pos hs]
        exact scanKeywords_nodup _ _ _
      · rw [if_neg hs]
        by_cases hb : ((bucketScan (kws.headD "") ((lookupBucket F s).getD []) []).1).isEmpty = true
        · rw [if_pos hb]
          exact scanKeywords_nodup _ _ _
        · rw [if_neg hb]
          exact bucketScan_nodup _ _ _

/-- C9: with a truthy subcategory hint naming a non-empty bucket of the
facilities index, the keyword search returns exactly that bucket —
independently of the entity catalog (no fall-through to the general
scan) — one entry per distinct bucket name (first kept), each tagged
`"facility"` and the first keyword (or `""`); and on all inputs the
search output is deduplicated by canonical name. -/
theorem c9_thm (F : Facilities) (Cat : Catalog) (kws : List String) (s : String)
    (items : List String)
    (hs : (s == "") = false)
    (hlook : lookupBucket F s = some items)
    (hne : items ≠ []) :
    (∀ C2 : Catalog, search_by_keywords (some F) C2 kws (some s)
        = (bucketScan (kws.headD "") items []).1)
    ∧ (∀ r : String × String × String,
        r ∈ search_by_keywords (some F) Cat kws (some s)
          ↔ (r.1 ∈ items ∧ r.2.1 = "facility" ∧ r.2.2 = kws.headD ""))
    ∧ ((search_by_keywords (some F) Cat kws (some s)).map (fun r => r.1)).Nodup
    ∧ (∀ (fac2 : Option Facilities) (C3 : Catalog) (kws2 : List String) (sub2 : Option String),
        ((search_by_keywords fac2 C3 kws2 sub2).map (fun r => r.1)).Nodup) := by
  obtain ⟨i, its, rfl⟩ := List.exists_cons_of_ne_nil hne
  have hmain : ∀ C2 : Catalog, search_by_keywords (some F) C2 kws (some s)
      = (bucketScan (kws.headD "") (i :: its) []).1 := by
    intro C2
    have hb : (bucketScan (kws.headD "") (i :: its) []).1.isEmpty = false := by
      unfold bucketScan
      rw [if_neg (by simp)]
      rfl
    unfold search_by_keywords
    dsimp only
    rw [hs, hlook]
    simp only [Bool.false_eq_true, if_false, Option.getD_some]
    rw [hb]
    simp only [Bool.false_eq_true, if_false]
  refine ⟨hmain, ?_, ?_, fun fac2 C3 kws2 sub2 => search_names_nodup fac2 C3 kws2 sub2⟩
  · intro r
    rw [hmain Cat, bucketScan_mem]
    simp
  · rw [hmain Cat]
    exact bucketScan_nodup _ _ _

/-- The facilities fixture: a `"Parking"` bucket with a duplicated
member name. -/
def facParking : Facilities := ⟨[("Parking", ["Car Park A", "Car Park A", "Car Park B"])]⟩

/-- C9 witness: the parking bucket is returned as-is (deduplicated,
tagged with the first keyword), at a concrete catalog and keyword
list. -/
theorem c9_witness :
    search_by_keywords (some facParking) cat0 ["parking", "停车"] (some "Parking")
      = (bucketScan "parking" ["Car Park A", "Car Park A", "Car Park B"] []).1
    ∧ (("Car Park A", "facility", "parking")
        ∈ search_by_keywords (some facParking) cat0 ["parking", "停车"] (some "Parking"))
    ∧ ((search_by_keywords (some facParking) cat0 ["parking", "停车"]
        (some "Parking")).map (fun r => r.1)).Nodup :=
  have h := c9_thm facParking cat0 ["parking", "停车"] "Parking"
    ["Car Park A", "Car Park A", "Car Park B"] (by decide) (by decide) (by decide)
  ⟨h.1 cat0, (h.2.1 _).mpr (by decide), h.2.2.1⟩

/-- Queries failing the short-no-digit gate skip the LLM stage. -/
theorem llmStage_none (env : Env) (q : String)
    (hg : ¬((pyStrip q).length < 15 ∧ pyHasDigit q = false)) :
    llmStage env q = none := by
  unfold llmStage
  rw [if_neg hg]

/-- The LLM stage can only produce a `location_candidates` payload. -/
theorem llmStage_shape (env : Env) (q : String) (r : ToolResult)
    (h : llmStage env q = some r) : ∃ cs, r = .llmCandidates cs := by
  unfold llmStage at h
  by_cases hg : ((pyStrip q).length < 15 ∧ pyHasDigit q = false)
  · rw [if_pos hg] at h
    dsimp only at h
    by_cases he : (search_by_keywords env.fac env.C
        (extract_intent_with_llm env.cache env.oracle q).1.keywords
        (extract_intent_with_llm env.cache env.oracle q).1.subcategory).isEmpty = true
    · rw [if_pos he] at h; cases h
    · rw [if_neg he] at h
      exact ⟨_, (Option.some_inj.mp h).symm⟩
  · rw [if_neg hg] at h; cases h

/-- C5: (1) when the stripped query has 15 or more characters or
contains a digit, the resolution outcome is independent of the oracle,
the intent cache and the facilities index — the intent extractor and the
keyword search are consulted only below the 15-character no-digit gate;
(2) once exact, fuzzy and the LLM stage yield nothing, the similarity
stage applies the fixed thresholds to the top-ranked score: above `0.6`
it resolves directly with method similarity (map succeeding), above
`0.3` it returns the ranked `Candidates` with their scores, otherwise
`Unresolved`. -/
theorem c5_thm :
    (∀ (env : Env) (q : String) (o₁ o₂ : Nat → Option RawIntent)
        (k₁ k₂ : List (String × IntentData)) (f₁ f₂ : Option Facilities),
      ¬((pyStrip q).length < 15 ∧ pyHasDigit q = false) →
      toolOutcome { env with oracle := o₁, cache := k₁, fac := f₁ } q
        = toolOutcome { env with oracle := o₂, cache := k₂, fac := f₂ } q)
    ∧ (∀ (env : Env) (q n c : String) (s : ℚ) (rest : List (String × String × ℚ)),
      local_match_exact env.C q = none →
      local_match_fuzzy env.C q = none →
      llmStage env q = none →
      find_best_matches env.sim env.C q 3 = (n, c, s) :: rest →
      (∀ x y z, env.mapOk x y z = true) →
      ((s > mkRat 3 5 → toolOutcome env q = .simFound n c)
        ∧ (s ≤ mkRat 3 5 → s > mkRat 3 10 →
            toolOutcome env q = .confirmCandidates ((n, c, s) :: rest))
        ∧ (s ≤ mkRat 3 10 → toolOutcome env q = .unresolvedOutcome q))) := by
  constructor
  · intro env q o₁ o₂ k₁ k₂ f₁ f₂ hg
    unfold toolOutcome
    rw [llmStage_none { env with oracle := o₁, cache := k₁, fac := f₁ } q hg,
      llmStage_none { env with oracle := o₂, cache := k₂, fac := f₂ } q hg]
    rfl
  · intro env q n c s rest hexact hfuzzy hllm hfind hmap
    have htool : toolOutcome env q = simStage env q := by
      unfold toolOutcome
      rw [hexact, hfuzzy, hllm]
    have hsim30 : (mkRat 3 10) ≤ (mkRat 3 5) := by decide
    refine ⟨?_, ?_, ?_⟩
    · intro hgt
      rw [htool]
      unfold simStage
      rw [hfind]
      dsimp only
      rw [if_pos ⟨hgt, hmap n c none⟩]
    · intro hle hgt
      rw [htool]
      unfold simStage
      rw [hfind]
      dsimp only
      rw [if_neg (fun hand => absurd hand.1 (not_lt.mpr hle)), if_pos hgt]
    · intro hle
      rw [htool]
      unfold simStage
      rw [hfind]
      dsimp only
      rw [if_neg (fun hand => absurd hand.1 (not_lt.mpr (le_trans hle hsim30))),
        if_neg (not_lt.mpr hle)]

/-- A usable oracle reply suggesting the keyword `library`. -/
def oracleLib : Nat → Option RawIntent :=
  fun _ => some ⟨some "i", ["library"], some "facility"⟩

/-- A never-answering oracle. -/
def oracleDown : Nat → Option RawIntent := fun _ => none

/-- C5 witness: at 16 `z`s the outcome ignores the oracle, the cache and
the facilities index; and over `env1` (every ratio `1/2`) the similarity
stage returns the ranked candidates. -/
theorem c5_witness :
    toolOutcome { env0 with oracle := oracleLib, cache := INTENT_CACHE, fac := none } q16
      = toolOutcome { env0 with oracle := oracleDown, cache := [], fac := none } q16
    ∧ toolOutcome env1 q16
      = .confirmCandidates
          [("Main Building", "building", mkRat 1 2), ("Main Library", "facilitie", mkRat 1 2)] :=
  ⟨c5_thm.1 env0 q16 oracleLib oracleDown INTENT_CACHE [] none none (by decide),
    (c5_thm.2 env1 q16 "Main Building" "building" (mkRat 1 2)
      [("Main Library", "facilitie", mkRat 1 2)] (by decide) (by decide) (by decide)
      (by decide) (fun _ _ _ => rfl)).2.1 (by decide) (by decide)⟩

/-- Folding the alias-score update over all-zero similarities from a
zero start stays zero. -/
theorem foldl_score_zero (sim : String → String → ℚ) :
    ∀ l : List String, (∀ a ∈ l, sim "" a = 0) →
      l.foldl (fun t a => if sim "" a > t then sim "" a else t) 0 = 0 := by
  intro l
  induction l with
  | nil => intro _; rfl
  | cons a rest ih =>
    intro h
    have ha : sim "" a = 0 := h a (List.mem_cons_self _ _)
    simp only [List.foldl_cons, ha]
    rw [if_neg (lt_irrefl 0)]
    exact ih fun b hb => h b (List.mem_cons_of_mem _ hb)

/-- An entity whose name and aliases all have zero similarity against
the empty normalized query scores zero. -/
theorem entityScore_eq_zero (sim : String → String → ℚ) (e : Entity)
    (hn : sim "" e.name = 0) (ha : ∀ a ∈ e.aliases, sim "" a = 0) :
    entityScore sim "" e = 0 := by
  unfold entityScore
  rw [hn]
  exact foldl_score_zero sim e.aliases ha

/-- Every ranked match comes from a scanned entity with its entity
score. -/
theorem find_best_mem (sim : String → String → ℚ) (C : Catalog) (query : String)
    (topN : Nat) (m : String × String × ℚ)
    (h : m ∈ find_best_matches sim C query topN) :
    ∃ x ∈ entitiesInOrder C,
      m = (x.1.name, x.2, entityScore sim (pyStrip (pyLower query)) x.1) := by
  unfold find_best_matches at h
  have h1 := List.take_subset topN _ h
  have h2 := (List.perm_insertionSort _ _).mem_iff.mp h1
  obtain ⟨x, hx, hxm⟩ := List.mem_map.mp h2
  exact ⟨x, hx, hxm.symm⟩

/-- C8: a query that strips to the empty string (the empty or a
whitespace-only query) is processed to completion against any catalog
of non-empty names and aliases none of which occurs in the blank query,
under any oracle, map client and facilities index: the outcome is a
candidate list or the `Unresolved` apology — never a direct resolution
and never an error (the embedding is a total function, as the code
catches or avoids every exception on this path). The similarity
hypothesis records difflib's ratio of an empty against a non-empty
string being `0`. -/
theorem c8_thm (env : Env) (q : String)
    (hq : pyStrip (pyLower q) = "")
    (hcat : ∀ x ∈ entitiesInOrder env.C,
        (pyLower x.1.name ≠ "" ∧ pyIn (pyLower x.1.name) (pyLower q) = false)
        ∧ ∀ a ∈ x.1.aliases, pyLower a ≠ "" ∧ pyIn (pyLower a) (pyLower q) = false)
    (hsim : ∀ t : String, pyLower t ≠ "" → env.sim "" t = 0) :
    (∃ cs, toolOutcome env q = .llmCandidates cs)
    ∨ toolOutcome env q = .unresolvedOutcome q := by
  have hexact : local_match_exact env.C q = none := by
    unfold local_match_exact
    dsimp only
    rw [hq]
    apply List.findSome?_eq_none_iff.mpr
    intro x hx
    have hm : entityMatchesExact "" x.1 = false := by
      unfold entityMatchesExact
      simp only [Bool.or_eq_false_iff, List.any_eq_false, Bool.not_eq_true]
      refine ⟨beq_eq_false_iff_ne.mpr (hcat x hx).1.1, fun a ha => ?_⟩
      exact beq_eq_false_iff_ne.mpr ((hcat x hx).2 a ha).1
    rw [hm]
    rfl
  have hfuzzy : local_match_fuzzy env.C q = none := by
    unfold local_match_fuzzy
    dsimp only
    apply List.findSome?_eq_none_iff.mpr
    intro x hx
    have hm : entityMatchesFuzzy (pyLower q) x.1 = false := by
      unfold entityMatchesFuzzy
      simp only [Bool.or_eq_false_iff, List.any_eq_false, Bool.not_eq_true]
      exact ⟨(hcat x hx).1.2, fun a ha => ((hcat x hx).2 a ha).2⟩
    rw [hm]
    rfl
  cases hl : llmStage env q with
  | some r =>
    obtain ⟨cs, rfl⟩ := llmStage_shape env q r hl
    left
    refine ⟨cs, ?_⟩
    unfold toolOutcome
    rw [hexact, hfuzzy, hl]
  | none =>
    right
    unfold toolOutcome
    rw [hexact, hfuzzy, hl]
    unfold simStage
    cases hf : find_best_matches env.sim env.C q 3 with
    | nil => rfl
    | cons m rest =>
      obtain ⟨x, hxmem, hm⟩ :=
        find_best_mem env.sim env.C q 3 m (hf ▸ List.mem_cons_self m rest)
      obtain ⟨n, c, s⟩ := m
      have hscore : s = 0 := by
        have h22 : s = entityScore env.sim (pyStrip (pyLower q)) x.1 :=
          congrArg (fun y => y.2.2) hm
        rw [h22, hq]
        exact entityScore_eq_zero env.sim x.1 (hsim _ (hcat x hxmem).1.1)
          (fun a ha => hsim _ ((hcat x hxmem).2 a ha).1)
      subst hscore
      dsimp only
      rw [if_neg (fun hand => absurd hand.1 (by decide)), if_neg (by decide)]

/-- C8 witness: the empty query over the concrete environment runs to
completion and is unresolved (or a candidate list). -/
theorem c8_witness :
    (∃ cs, toolOutcome env0 "" = .llmCandidates cs)
    ∨ toolOutcome env0 "" = .unresolvedOutcome "" :=
  c8_thm env0 "" (by decide) (by decide) (fun _ _ => rfl)

end MapAgent
